import Mathlib

/-!
Formal model of the fixed-price listing contract in
`src/contracts/hello-world/src/lib.rs`.

The contract stores `Item` records under `DataKey::Item(id)` and a
`DataKey::ItemCounter` in the host's instance storage, and exposes four
operations: `list_item`, `buy_item`, `unlist_item`, `view_item`.

Modelling choices:
* Soroban `Address` values are opaque identities; we model them as `Nat`.
* Soroban `String` carries no structure used by the contract; we use
  Lean `String`.
* `u64` quantities (`id`, `list_time`, `expiry_time`, the counter) are
  `Nat`s; additions on them go through `checkedAdd64`, which reports
  overflow past `2^64 - 1` (see its doc comment).
* `i128` prices are `Int`; the contract performs no arithmetic on them.
* The host environment supplies the ledger timestamp
  (`env.ledger().timestamp()`) and the outcome of `require_auth`; both
  are fields of `Env`.
* Each operation is a function from the environment and the storage to
  a result (`Except ContractError _`) and the storage as left behind by
  the statements executed before the operation returned or aborted.
  A `panic!` in the source becomes `Except.error`; writes performed
  before the panic (the expiry path of `buy_item`) remain in the
  returned storage, matching the sequence of `set` calls in the source.
-/

namespace Auction

/-- Identities (Soroban `Address`), modelled as an abstract countable type. -/
abbrev Address := Nat

/-- Status variants from the source (`ItemStatus`): `Listed | Sold | Unlisted`. -/
inductive ItemStatus where
  | Listed
  | Sold
  | Unlisted
deriving DecidableEq, Repr

/-- Record of the source's `Item` struct, field for field. -/
structure Item where
  id : Nat
  seller : Address
  price : Int
  description : String
  status : ItemStatus
  buyer : Option Address
  list_time : Nat
  expiry_time : Nat
deriving DecidableEq, Repr

/-- The failure kinds of the contract (each `panic!` site in the source),
plus `Overflow` for aborts raised by checked `u64` arithmetic. -/
inductive ContractError where
  | Unauthorized
  | InvalidPrice
  | NotFound
  | NotAvailable
  | Expired
  | SelfTrade
  | NotOwner
  | Overflow
deriving DecidableEq, Repr

/-- The contract's instance storage: the `DataKey::Item(id)` entries and
the `DataKey::ItemCounter` entry (`none` when never written).
`DataKey::SellerItems` is declared in the source but never read or
written, so it has no observable content. -/
structure Storage where
  items : Nat → Option Item
  itemCounter : Option Nat

/-- The storage of a freshly deployed contract: nothing stored. -/
def Storage.empty : Storage :=
  { items := fun _ => none, itemCounter := none }

/-- Model of `env.storage().instance().set(&DataKey::Item(k), &it)`. -/
def setItem (s : Storage) (k : Nat) (it : Item) : Storage :=
  { s with items := fun k' => if k' = k then some it else s.items k' }

/-- The host environment visible to one invocation: the ledger timestamp
and which identities `require_auth` accepts. -/
structure Env where
  timestamp : Nat
  authed : Address → Bool

/-- Modelled from the spec: the semantics of `u64` addition in
`list_item` (`item_counter + 1` and `current_time + duration_seconds`)
is fixed by the crate's release profile (its `overflow-checks` setting),
which is not under `src/`.  The spec requires `expiry_time >= list_time`
as an invariant of every stored item and states that any failure aborts
the whole invocation with no state change, so an overflowing addition
must abort rather than wrap: we model checked `u64` addition, `none`
standing for the abort. -/
def checkedAdd64 (a b : Nat) : Option Nat :=
  if a + b < 2 ^ 64 then some (a + b) else none

/-- The `Item` record built by `list_item`: `status = Listed`,
`buyer = None`, the remaining fields from the inputs and the clock. -/
def listedItem (item_id : Nat) (seller : Address) (price : Int)
    (description : String) (list_time expiry_time : Nat) : Item :=
  { id := item_id
    seller := seller
    price := price
    description := description
    status := ItemStatus.Listed
    buyer := none
    list_time := list_time
    expiry_time := expiry_time }

/-- Operation `list_item` from the source: authorization, price validation, id
assignment from the counter (default 0 when absent), timestamps,
construction of the `Listed` item, the two `set` calls (item, then
counter), and the returned id. -/
def list_item (env : Env) (s : Storage) (seller : Address) (price : Int)
    (description : String) (duration_seconds : Nat) :
    Except ContractError Nat × Storage :=
  if env.authed seller then
    if price ≤ 0 then
      (.error .InvalidPrice, s)
    else
      match checkedAdd64 (s.itemCounter.getD 0) 1 with
      | none => (.error .Overflow, s)
      | some item_id =>
        match checkedAdd64 env.timestamp duration_seconds with
        | none => (.error .Overflow, s)
        | some expiry_time =>
          (.ok item_id,
            { setItem s item_id
                (listedItem item_id seller price description env.timestamp expiry_time)
              with itemCounter := some item_id })
  else
    (.error .Unauthorized, s)

/-- Operation `buy_item` from the source: authorization, lookup, `Listed` check,
expiry check (which persists the `Unlisted` item before aborting),
self-trade check, then the `Sold` update. -/
def buy_item (env : Env) (s : Storage) (item_id : Nat) (buyer : Address) :
    Except ContractError Bool × Storage :=
  if env.authed buyer then
    match s.items item_id with
    | none => (.error .NotFound, s)
    | some item =>
      if item.status ≠ ItemStatus.Listed then
        (.error .NotAvailable, s)
      else if env.timestamp > item.expiry_time then
        (.error .Expired, setItem s item_id { item with status := ItemStatus.Unlisted })
      else if buyer = item.seller then
        (.error .SelfTrade, s)
      else
        (.ok true,
          setItem s item_id
            { item with status := ItemStatus.Sold, buyer := some buyer })
  else
    (.error .Unauthorized, s)

/-- Operation `unlist_item` from the source: authorization, lookup, owner check,
`Listed` check, then the `Unlisted` update. -/
def unlist_item (env : Env) (s : Storage) (item_id : Nat) (seller : Address) :
    Except ContractError Bool × Storage :=
  if env.authed seller then
    match s.items item_id with
    | none => (.error .NotFound, s)
    | some item =>
      if item.seller ≠ seller then
        (.error .NotOwner, s)
      else if item.status ≠ ItemStatus.Listed then
        (.error .NotAvailable, s)
      else
        (.ok true, setItem s item_id { item with status := ItemStatus.Unlisted })
  else
    (.error .Unauthorized, s)

/-- Operation `view_item` from the source: read-only lookup. -/
def view_item (s : Storage) (item_id : Nat) : Except ContractError Item :=
  match s.items item_id with
  | none => .error .NotFound
  | some item => .ok item

/-! ## Invariants and the operation alphabet -/

/-- One invocation of a public operation, with its arguments. -/
inductive Op where
  | list (seller : Address) (price : Int) (descr : String) (dur : Nat)
  | buy (item_id : Nat) (buyer : Address)
  | unlist (item_id : Nat) (seller : Address)
  | view (item_id : Nat)

/-- The storage left behind by one invocation (`view_item` reads only,
so it leaves the storage as it was). -/
def applyOp (env : Env) (s : Storage) : Op → Storage
  | .list seller price descr dur => (list_item env s seller price descr dur).2
  | .buy item_id buyer => (buy_item env s item_id buyer).2
  | .unlist item_id seller => (unlist_item env s item_id seller).2
  | .view _ => s

/-- The allowed status evolutions of a stored item between two
observations: unchanged, or away from `Listed`.  Equivalently: the only
proper transitions leave `Listed`, and `Sold` and `Unlisted` are
terminal. -/
def statusOk (a b : ItemStatus) : Prop :=
  a = b ∨ a = ItemStatus.Listed

/-- Every item stored before the step and still stored after it made an
allowed status transition. -/
def stepOk (s s' : Storage) : Prop :=
  ∀ i it it', s.items i = some it → s'.items i = some it' →
    statusOk it.status it'.status

/-- The buyer field discipline of a single item: `buyer` is `none`
unless the item is `Sold`, in which case it holds exactly one identity
distinct from the seller. -/
def GoodItem (it : Item) : Prop :=
  (it.status = ItemStatus.Sold → ∃ b, it.buyer = some b ∧ b ≠ it.seller) ∧
  (it.status ≠ ItemStatus.Sold → it.buyer = none)

/-- The inductive state invariant: every stored item obeys the buyer
discipline, and every stored key is at most the counter (so a fresh id
`counter + 1` never collides with a stored item). -/
def Inv (s : Storage) : Prop :=
  ∀ i it, s.items i = some it → GoodItem it ∧ i ≤ s.itemCounter.getD 0

/-- Every stored item was listed no later than it expires. -/
def TimeInv (s : Storage) : Prop :=
  ∀ i it, s.items i = some it → it.list_time ≤ it.expiry_time

/-! ## Concrete fixtures used by witnesses -/

/-- An environment whose host authorizes everyone, at ledger time 1000. -/
def env0 : Env := { timestamp := 1000, authed := fun _ => true }

/-- The same host at ledger time 5000 (past `item1`'s expiry). -/
def envLate : Env := { timestamp := 5000, authed := fun _ => true }

/-- The item produced by `list_item env0 Storage.empty 7 100 "apple" 3600`. -/
def item1 : Item :=
  { id := 1
    seller := 7
    price := 100
    description := "apple"
    status := ItemStatus.Listed
    buyer := none
    list_time := 1000
    expiry_time := 4600 }

/-- The storage after that first listing. -/
def s1 : Storage := { setItem Storage.empty 1 item1 with itemCounter := some 1 }

/-! ## Helper lemmas -/

lemma checkedAdd64_some {a b c : Nat} (h : checkedAdd64 a b = some c) :
    c = a + b ∧ a + b < 2 ^ 64 := by
  unfold checkedAdd64 at h
  split at h
  · exact ⟨(Option.some.inj h).symm, by assumption⟩
  · exact absurd h (by simp)

lemma setItem_items (s : Storage) (k : Nat) (it : Item) (k' : Nat) :
    (setItem s k it).items k' = if k' = k then some it else s.items k' := rfl

lemma setItem_itemCounter (s : Storage) (k : Nat) (it : Item) :
    (setItem s k it).itemCounter = s.itemCounter := rfl

lemma stepOk_refl (s : Storage) : stepOk s s := by
  intro i it it' h h'
  rw [h] at h'
  exact Or.inl (congrArg Item.status (Option.some.inj h'))

/-- Writing an allowed update of a stored item is an allowed step. -/
lemma stepOk_setItem {s : Storage} {k : Nat} {it it' : Item}
    (hk : s.items k = some it) (hst : statusOk it.status it'.status) :
    stepOk s (setItem s k it') := by
  intro i a b ha hb
  rw [setItem_items] at hb
  by_cases hik : i = k
  · subst hik
    rw [hk] at ha
    obtain rfl := Option.some.inj ha
    simp only [if_pos rfl] at hb
    obtain rfl := Option.some.inj hb
    exact hst
  · rw [if_neg hik] at hb
    rw [ha] at hb
    exact Or.inl (congrArg Item.status (Option.some.inj hb))

/-- Overwriting a stored key with a good item preserves `Inv`
(the counter is untouched by `setItem`). -/
lemma Inv_setItem {s : Storage} {k : Nat} {it' : Item}
    (hInv : Inv s) (hk : k ≤ s.itemCounter.getD 0) (hg : GoodItem it') :
    Inv (setItem s k it') := by
  intro i a ha
  rw [setItem_items] at ha
  by_cases hik : i = k
  · subst hik
    rw [if_pos rfl] at ha
    obtain rfl := Option.some.inj ha
    exact ⟨hg, hk⟩
  · rw [if_neg hik] at ha
    exact hInv i a ha

lemma TimeInv_setItem {s : Storage} {k : Nat} {it' : Item}
    (hT : TimeInv s) (h : it'.list_time ≤ it'.expiry_time) :
    TimeInv (setItem s k it') := by
  intro i a ha
  rw [setItem_items] at ha
  by_cases hik : i = k
  · subst hik
    rw [if_pos rfl] at ha
    obtain rfl := Option.some.inj ha
    exact h
  · rw [if_neg hik] at ha
    exact hT i a ha

/-! ### Branch characterizations of the three mutating operations -/

section Branches

variable {env : Env} {s : Storage} {seller buyer : Address} {price : Int}
  {d : String} {dur item_id : Nat} {item : Item} {e : ContractError}

lemma list_item_unauth (h : env.authed seller = false) :
    list_item env s seller price d dur = (.error .Unauthorized, s) := by
  simp [list_item, h]

lemma list_item_invalidPrice (ha : env.authed seller = true) (hp : price ≤ 0) :
    list_item env s seller price d dur = (.error .InvalidPrice, s) := by
  simp [list_item, ha, hp]

lemma list_item_counterOverflow (ha : env.authed seller = true) (hp : ¬ price ≤ 0)
    (hc : checkedAdd64 (s.itemCounter.getD 0) 1 = none) :
    list_item env s seller price d dur = (.error .Overflow, s) := by
  simp [list_item, ha, hp, hc]

lemma list_item_timeOverflow (ha : env.authed seller = true) (hp : ¬ price ≤ 0)
    (hc : checkedAdd64 (s.itemCounter.getD 0) 1 = some item_id)
    (ht : checkedAdd64 env.timestamp dur = none) :
    list_item env s seller price d dur = (.error .Overflow, s) := by
  simp [list_item, ha, hp, hc, ht]

lemma list_item_success (ha : env.authed seller = true) (hp : ¬ price ≤ 0)
    (hc : checkedAdd64 (s.itemCounter.getD 0) 1 = some item_id)
    {expiry : Nat} (ht : checkedAdd64 env.timestamp dur = some expiry) :
    list_item env s seller price d dur =
      (.ok item_id,
        { setItem s item_id
            (listedItem item_id seller price d env.timestamp expiry)
          with itemCounter := some item_id }) := by
  simp [list_item, ha, hp, hc, ht]

lemma buy_item_unauth (h : env.authed buyer = false) :
    buy_item env s item_id buyer = (.error .Unauthorized, s) := by
  simp [buy_item, h]

lemma buy_item_notFound (ha : env.authed buyer = true) (h : s.items item_id = none) :
    buy_item env s item_id buyer = (.error .NotFound, s) := by
  simp [buy_item, ha, h]

lemma buy_item_notAvailable (ha : env.authed buyer = true)
    (hit : s.items item_id = some item) (hst : item.status ≠ ItemStatus.Listed) :
    buy_item env s item_id buyer = (.error .NotAvailable, s) := by
  simp [buy_item, ha, hit, hst]

lemma buy_item_expired (ha : env.authed buyer = true)
    (hit : s.items item_id = some item) (hst : item.status = ItemStatus.Listed)
    (hexp : env.timestamp > item.expiry_time) :
    buy_item env s item_id buyer =
      (.error .Expired, setItem s item_id { item with status := ItemStatus.Unlisted }) := by
  simp [buy_item, ha, hit, hst, hexp]

lemma buy_item_selfTrade (ha : env.authed buyer = true)
    (hit : s.items item_id = some item) (hst : item.status = ItemStatus.Listed)
    (hexp : ¬ env.timestamp > item.expiry_time) (hb : buyer = item.seller) :
    buy_item env s item_id buyer = (.error .SelfTrade, s) := by
  subst hb
  simp [buy_item, ha, hit, hst, hexp]

lemma buy_item_success (ha : env.authed buyer = true)
    (hit : s.items item_id = some item) (hst : item.status = ItemStatus.Listed)
    (hexp : ¬ env.timestamp > item.expiry_time) (hb : buyer ≠ item.seller) :
    buy_item env s item_id buyer =
      (.ok true,
        setItem s item_id
          { item with status := ItemStatus.Sold, buyer := some buyer }) := by
  simp [buy_item, ha, hit, hst, hexp, hb]

lemma unlist_item_unauth (h : env.authed seller = false) :
    unlist_item env s item_id seller = (.error .Unauthorized, s) := by
  simp [unlist_item, h]

lemma unlist_item_notFound (ha : env.authed seller = true)
    (h : s.items item_id = none) :
    unlist_item env s item_id seller = (.error .NotFound, s) := by
  simp [unlist_item, ha, h]

lemma unlist_item_notOwner (ha : env.authed seller = true)
    (hit : s.items item_id = some item) (ho : item.seller ≠ seller) :
    unlist_item env s item_id seller = (.error .NotOwner, s) := by
  simp [unlist_item, ha, hit, ho]

lemma unlist_item_notAvailable (ha : env.authed seller = true)
    (hit : s.items item_id = some item) (ho : item.seller = seller)
    (hst : item.status ≠ ItemStatus.Listed) :
    unlist_item env s item_id seller = (.error .NotAvailable, s) := by
  simp [unlist_item, ha, hit, ho, hst]

lemma unlist_item_success (ha : env.authed seller = true)
    (hit : s.items item_id = some item) (ho : item.seller = seller)
    (hst : item.status = ItemStatus.Listed) :
    unlist_item env s item_id seller =
      (.ok true, setItem s item_id { item with status := ItemStatus.Unlisted }) := by
  simp [unlist_item, ha, hit, ho, hst]

end Branches

/-! ### Preservation lemmas -/

lemma stepOk_setItem_fresh {s : Storage} {k : Nat} {it' : Item}
    (hk : s.items k = none) : stepOk s (setItem s k it') := by
  intro i a b ha hb
  rw [setItem_items] at hb
  by_cases hik : i = k
  · subst hik
    rw [hk] at ha
    exact absurd ha (by simp)
  · rw [if_neg hik] at hb
    rw [ha] at hb
    exact Or.inl (congrArg Item.status (Option.some.inj hb))

lemma GoodItem_listedItem (item_id : Nat) (seller : Address) (price : Int)
    (d : String) (t e : Nat) : GoodItem (listedItem item_id seller price d t e) := by
  constructor
  · intro hcon
    exact absurd hcon (by simp [listedItem])
  · intro _
    rfl

lemma GoodItem_unlisted {item : Item} (hg : GoodItem item)
    (hst : item.status = ItemStatus.Listed) :
    GoodItem { item with status := ItemStatus.Unlisted } := by
  constructor
  · intro hcon
    exact absurd hcon (by simp)
  · intro _
    exact hg.2 (by simp [hst])

lemma GoodItem_sold {item : Item} {buyer : Address} (hb : buyer ≠ item.seller) :
    GoodItem { item with status := ItemStatus.Sold, buyer := some buyer } := by
  constructor
  · intro _
    exact ⟨buyer, rfl, hb⟩
  · intro hcon
    exact absurd rfl hcon

lemma list_item_preserves (env : Env) (s : Storage) (a : Address) (p : Int)
    (d : String) (dur : Nat) (hInv : Inv s) :
    stepOk s (list_item env s a p d dur).2 ∧ Inv (list_item env s a p d dur).2 := by
  by_cases ha : env.authed a = true
  · by_cases hp : p ≤ 0
    · rw [list_item_invalidPrice ha hp]
      exact ⟨stepOk_refl s, hInv⟩
    · cases hc : checkedAdd64 (s.itemCounter.getD 0) 1 with
      | none =>
        rw [list_item_counterOverflow ha hp hc]
        exact ⟨stepOk_refl s, hInv⟩
      | some item_id =>
        cases ht : checkedAdd64 env.timestamp dur with
        | none =>
          rw [list_item_timeOverflow ha hp hc ht]
          exact ⟨stepOk_refl s, hInv⟩
        | some expiry =>
          rw [list_item_success ha hp hc ht]
          obtain ⟨rfl, -⟩ := checkedAdd64_some hc
          have hfresh : s.items (s.itemCounter.getD 0 + 1) = none := by
            cases hsi : s.items (s.itemCounter.getD 0 + 1) with
            | none => rfl
            | some x =>
              have h2 := (hInv _ x hsi).2
              omega
          refine ⟨stepOk_setItem_fresh hfresh, ?_⟩
          intro i b hb
          have hb' : (setItem s (s.itemCounter.getD 0 + 1)
              (listedItem (s.itemCounter.getD 0 + 1) a p d env.timestamp expiry)).items i
              = some b := hb
          rw [setItem_items] at hb'
          by_cases hik : i = s.itemCounter.getD 0 + 1
          · rw [if_pos hik] at hb'
            obtain rfl := Option.some.inj hb'
            refine ⟨GoodItem_listedItem _ _ _ _ _ _, ?_⟩
            show i ≤ s.itemCounter.getD 0 + 1
            omega
          · rw [if_neg hik] at hb'
            refine ⟨(hInv i b hb').1, ?_⟩
            show i ≤ s.itemCounter.getD 0 + 1
            have := (hInv i b hb').2
            omega
  · rw [list_item_unauth (by simpa using ha)]
    exact ⟨stepOk_refl s, hInv⟩

lemma buy_item_preserves (env : Env) (s : Storage) (item_id : Nat) (buyer : Address)
    (hInv : Inv s) :
    stepOk s (buy_item env s item_id buyer).2 ∧ Inv (buy_item env s item_id buyer).2 := by
  by_cases ha : env.authed buyer = true
  · cases hit : s.items item_id with
    | none =>
      rw [buy_item_notFound ha hit]
      exact ⟨stepOk_refl s, hInv⟩
    | some item =>
      by_cases hst : item.status = ItemStatus.Listed
      · by_cases hexp : env.timestamp > item.expiry_time
        · rw [buy_item_expired ha hit hst hexp]
          exact ⟨stepOk_setItem hit (Or.inr hst),
            Inv_setItem hInv (hInv _ _ hit).2
              (GoodItem_unlisted (hInv _ _ hit).1 hst)⟩
        · by_cases hb : buyer = item.seller
          · rw [buy_item_selfTrade ha hit hst hexp hb]
            exact ⟨stepOk_refl s, hInv⟩
          · rw [buy_item_success ha hit hst hexp hb]
            exact ⟨stepOk_setItem hit (Or.inr hst),
              Inv_setItem hInv (hInv _ _ hit).2 (GoodItem_sold hb)⟩
      · rw [buy_item_notAvailable ha hit hst]
        exact ⟨stepOk_refl s, hInv⟩
  · rw [buy_item_unauth (by simpa using ha)]
    exact ⟨stepOk_refl s, hInv⟩

lemma unlist_item_preserves (env : Env) (s : Storage) (item_id : Nat)
    (seller : Address) (hInv : Inv s) :
    stepOk s (unlist_item env s item_id seller).2 ∧
    Inv (unlist_item env s item_id seller).2 := by
  by_cases ha : env.authed seller = true
  · cases hit : s.items item_id with
    | none =>
      rw [unlist_item_notFound ha hit]
      exact ⟨stepOk_refl s, hInv⟩
    | some item =>
      by_cases ho : item.seller = seller
      · by_cases hst : item.status = ItemStatus.Listed
        · rw [unlist_item_success ha hit ho hst]
          exact ⟨stepOk_setItem hit (Or.inr hst),
            Inv_setItem hInv (hInv _ _ hit).2
              (GoodItem_unlisted (hInv _ _ hit).1 hst)⟩
        · rw [unlist_item_notAvailable ha hit ho hst]
          exact ⟨stepOk_refl s, hInv⟩
      · rw [unlist_item_notOwner ha hit ho]
        exact ⟨stepOk_refl s, hInv⟩
  · rw [unlist_item_unauth (by simpa using ha)]
    exact ⟨stepOk_refl s, hInv⟩

lemma list_item_timeInv (env : Env) (s : Storage) (a : Address) (p : Int)
    (d : String) (dur : Nat) (hT : TimeInv s) :
    TimeInv (list_item env s a p d dur).2 := by
  by_cases ha : env.authed a = true
  · by_cases hp : p ≤ 0
    · rw [list_item_invalidPrice ha hp]
      exact hT
    · cases hc : checkedAdd64 (s.itemCounter.getD 0) 1 with
      | none =>
        rw [list_item_counterOverflow ha hp hc]
        exact hT
      | some item_id =>
        cases ht : checkedAdd64 env.timestamp dur with
        | none =>
          rw [list_item_timeOverflow ha hp hc ht]
          exact hT
        | some expiry =>
          rw [list_item_success ha hp hc ht]
          obtain ⟨rfl, -⟩ := checkedAdd64_some ht
          intro i b hb
          exact TimeInv_setItem hT (by simp [listedItem]) i b hb
  · rw [list_item_unauth (by simpa using ha)]
    exact hT

lemma buy_item_timeInv (env : Env) (s : Storage) (item_id : Nat)
    (buyer : Address) (hT : TimeInv s) :
    TimeInv (buy_item env s item_id buyer).2 := by
  by_cases ha : env.authed buyer = true
  · cases hit : s.items item_id with
    | none =>
      rw [buy_item_notFound ha hit]
      exact hT
    | some item =>
      by_cases hst : item.status = ItemStatus.Listed
      · by_cases hexp : env.timestamp > item.expiry_time
        · rw [buy_item_expired ha hit hst hexp]
          exact TimeInv_setItem hT (hT item_id item hit)
        · by_cases hb : buyer = item.seller
          · rw [buy_item_selfTrade ha hit hst hexp hb]
            exact hT
          · rw [buy_item_success ha hit hst hexp hb]
            exact TimeInv_setItem hT (hT item_id item hit)
      · rw [buy_item_notAvailable ha hit hst]
        exact hT
  · rw [buy_item_unauth (by simpa using ha)]
    exact hT

lemma list_item_error_unchanged (env : Env) (s : Storage) (a : Address) (p : Int)
    (d : String) (dur : Nat) (e : ContractError)
    (h : (list_item env s a p d dur).1 = .error e) :
    (list_item env s a p d dur).2 = s := by
  by_cases ha : env.authed a = true
  · by_cases hp : p ≤ 0
    · rw [list_item_invalidPrice ha hp]
    · cases hc : checkedAdd64 (s.itemCounter.getD 0) 1 with
      | none => rw [list_item_counterOverflow ha hp hc]
      | some item_id =>
        cases ht : checkedAdd64 env.timestamp dur with
        | none => rw [list_item_timeOverflow ha hp hc ht]
        | some expiry =>
          rw [list_item_success ha hp hc ht] at h
          simp at h
  · rw [list_item_unauth (by simpa using ha)]

lemma buy_item_error_unchanged (env : Env) (s : Storage) (item_id : Nat)
    (buyer : Address) (e : ContractError)
    (h : (buy_item env s item_id buyer).1 = .error e) (hne : e ≠ .Expired) :
    (buy_item env s item_id buyer).2 = s := by
  by_cases ha : env.authed buyer = true
  · cases hit : s.items item_id with
    | none => rw [buy_item_notFound ha hit]
    | some item =>
      by_cases hst : item.status = ItemStatus.Listed
      · by_cases hexp : env.timestamp > item.expiry_time
        · rw [buy_item_expired ha hit hst hexp] at h
          simp at h
          exact absurd h.symm hne
        · by_cases hbs : buyer = item.seller
          · rw [buy_item_selfTrade ha hit hst hexp hbs]
          · rw [buy_item_success ha hit hst hexp hbs] at h
            simp at h
      · rw [buy_item_notAvailable ha hit hst]
  · rw [buy_item_unauth (by simpa using ha)]

lemma unlist_item_error_unchanged (env : Env) (s : Storage) (item_id : Nat)
    (seller : Address) (e : ContractError)
    (h : (unlist_item env s item_id seller).1 = .error e) :
    (unlist_item env s item_id seller).2 = s := by
  by_cases ha : env.authed seller = true
  · cases hit : s.items item_id with
    | none => rw [unlist_item_notFound ha hit]
    | some item =>
      by_cases ho : item.seller = seller
      · by_cases hst : item.status = ItemStatus.Listed
        · rw [unlist_item_success ha hit ho hst] at h
          simp at h
        · rw [unlist_item_notAvailable ha hit ho hst]
      · rw [unlist_item_notOwner ha hit ho]
  · rw [unlist_item_unauth (by simpa using ha)]

lemma unlist_item_timeInv (env : Env) (s : Storage) (item_id : Nat)
    (seller : Address) (hT : TimeInv s) :
    TimeInv (unlist_item env s item_id seller).2 := by
  by_cases ha : env.authed seller = true
  · cases hit : s.items item_id with
    | none =>
      rw [unlist_item_notFound ha hit]
      exact hT
    | some item =>
      by_cases ho : item.seller = seller
      · by_cases hst : item.status = ItemStatus.Listed
        · rw [unlist_item_success ha hit ho hst]
          exact TimeInv_setItem hT (hT item_id item hit)
        · rw [unlist_item_notAvailable ha hit ho hst]
          exact hT
      · rw [unlist_item_notOwner ha hit ho]
        exact hT
  · rw [unlist_item_unauth (by simpa using ha)]
    exact hT

/-- A successful `list_item` returns `counter + 1` (counter defaulting
to 0 when absent) and writes that value back as the new counter. -/
lemma list_item_ok_counter {env : Env} {s : Storage} {a : Address} {p : Int}
    {d : String} {dur id : Nat} {st : Storage}
    (h : list_item env s a p d dur = (.ok id, st)) :
    id = s.itemCounter.getD 0 + 1 ∧ st.itemCounter = some id := by
  by_cases ha : env.authed a = true
  · by_cases hp : p ≤ 0
    · rw [list_item_invalidPrice ha hp] at h
      simp at h
    · cases hc : checkedAdd64 (s.itemCounter.getD 0) 1 with
      | none =>
        rw [list_item_counterOverflow ha hp hc] at h
        simp at h
      | some iid =>
        cases ht : checkedAdd64 env.timestamp dur with
        | none =>
          rw [list_item_timeOverflow ha hp hc ht] at h
          simp at h
        | some expiry =>
          rw [list_item_success ha hp hc ht] at h
          rw [Prod.mk.injEq] at h
          obtain ⟨h1, h2⟩ := h
          obtain rfl := Except.ok.inj h1
          obtain ⟨h3, -⟩ := checkedAdd64_some hc
          subst h2
          exact ⟨h3, rfl⟩
  · rw [list_item_unauth (by simpa using ha)] at h
    simp at h

/-! ## Sequences of listings -/

/-- The arguments of one `list_item` request. -/
structure ListReq where
  seller : Address
  price : Int
  description : String
  duration_seconds : Nat

/-- Run a sequence of `list_item` invocations, each under its own host
environment.  Returns `none` if any invocation fails, otherwise the
returned ids in call order together with the final storage. -/
def runList (s : Storage) : List (Env × ListReq) → Option (List Nat × Storage)
  | [] => some ([], s)
  | (e, r) :: rest =>
    match list_item e s r.seller r.price r.description r.duration_seconds with
    | (.ok id, s') =>
      match runList s' rest with
      | none => none
      | some (ids, s'') => some (id :: ids, s'')
    | (.error _, _) => none

lemma runList_ids (reqs : List (Env × ListReq)) :
    ∀ s ids s', runList s reqs = some (ids, s') →
      ids = List.range' (s.itemCounter.getD 0 + 1) reqs.length ∧
      s'.itemCounter.getD 0 = s.itemCounter.getD 0 + reqs.length := by
  induction reqs with
  | nil =>
    intro s ids s' h
    simp only [runList, Option.some.injEq, Prod.mk.injEq] at h
    obtain ⟨rfl, rfl⟩ := h
    simp [List.range']
  | cons er rest ih =>
    obtain ⟨e, r⟩ := er
    intro s ids s' h
    simp only [runList] at h
    rcases hli : list_item e s r.seller r.price r.description r.duration_seconds
      with ⟨res, st⟩
    rw [hli] at h
    cases res with
    | error err => exact absurd h (by simp)
    | ok id =>
      simp only at h
      cases hrl : runList st rest with
      | none =>
        rw [hrl] at h
        exact absurd h (by simp)
      | some p =>
        obtain ⟨ids2, s2⟩ := p
        rw [hrl] at h
        simp only [Option.some.injEq, Prod.mk.injEq] at h
        obtain ⟨rfl, rfl⟩ := h
        obtain ⟨hid, hcnt⟩ := list_item_ok_counter hli
        obtain ⟨hids2, hc2⟩ := ih st ids2 _ hrl
        subst hid
        constructor
        · rw [List.length_cons, List.range'_succ, hids2, hcnt]
          simp
        · rw [hc2, hcnt]
          simp
          omega

/-! ## Further fixtures -/

/-- The permissive host at ledger time 2000. -/
def env2 : Env := { timestamp := 2000, authed := fun _ => true }

/-- First demo request: seller 7 lists at price 100 for 3600 seconds. -/
def req1 : ListReq := ⟨7, 100, "apple", 3600⟩

/-- Second demo request: seller 8 lists at price 50 for 100 seconds. -/
def req2 : ListReq := ⟨8, 50, "pear", 100⟩

/-- The item produced by the second demo request at time 2000. -/
def item2 : Item :=
  { id := 2
    seller := 8
    price := 50
    description := "pear"
    status := ItemStatus.Listed
    buyer := none
    list_time := 2000
    expiry_time := 2100 }

/-- Two listing requests in sequence. -/
def demoReqs : List (Env × ListReq) := [(env0, req1), (env2, req2)]

/-- The storage after running both demo requests from the empty store. -/
def demoS2 : Storage := { setItem s1 2 item2 with itemCounter := some 2 }

/-- Copy of `item1` after being sold to buyer 9. -/
def itemSold : Item := { item1 with status := ItemStatus.Sold, buyer := some 9 }

/-- A storage holding the sold item under id 1. -/
def sSold : Storage := setItem s1 1 itemSold

lemma Inv_s1 : Inv s1 := by
  intro i it h
  have h' : (if i = 1 then some item1 else none) = some it := h
  by_cases h1 : i = 1
  · rw [if_pos h1] at h'
    obtain rfl := Option.some.inj h'
    refine ⟨⟨?_, ?_⟩, ?_⟩
    · intro hcon
      exact absurd hcon (by simp [item1])
    · intro _
      rfl
    · show i ≤ 1
      omega
  · rw [if_neg h1] at h'
    exact absurd h' (by simp)

lemma TimeInv_s1 : TimeInv s1 := by
  intro i it h
  have h' : (if i = 1 then some item1 else none) = some it := h
  by_cases h1 : i = 1
  · rw [if_pos h1] at h'
    obtain rfl := Option.some.inj h'
    show (1000 : Nat) ≤ 4600
    omega
  · rw [if_neg h1] at h'
    exact absurd h' (by simp)

/-! ## The claims -/

/-- C1: every operation (`list_item`, `buy_item`, `unlist_item`, and the
read-only `view_item`, which by construction returns no storage) moves
each stored item's status only along `Listed → Sold` or
`Listed → Unlisted` — never the reverse, `Sold` and `Unlisted` being
terminal (`stepOk`/`statusOk`) — and preserves the invariant `Inv`:
every stored item's `buyer` is `none` unless its status is `Sold`, in
which case it holds exactly one identity distinct from the seller
(together with the key bound `id ≤ counter` that makes the invariant
inductive). -/
theorem C1_state_invariant (env : Env) (s : Storage) (op : Op) (hInv : Inv s) :
    stepOk s (applyOp env s op) ∧ Inv (applyOp env s op) := by
  cases op with
  | list a p d dur => exact list_item_preserves env s a p d dur hInv
  | buy i b => exact buy_item_preserves env s i b hInv
  | unlist i a => exact unlist_item_preserves env s i a hInv
  | view _ => exact ⟨stepOk_refl s, hInv⟩

/-- Witness for C1: the invariant holds in the concrete storage `s1`
and is preserved by a concrete purchase. -/
theorem C1_state_invariant_witness :
    Inv s1 ∧
    (stepOk s1 (applyOp env0 s1 (Op.buy 1 9)) ∧ Inv (applyOp env0 s1 (Op.buy 1 9))) :=
  ⟨Inv_s1, C1_state_invariant env0 s1 (Op.buy 1 9) Inv_s1⟩

/-- C2: `buy_item` on a `Listed` item whose expiry has passed first
persists the item with status `Unlisted` and then fails with `Expired`;
a subsequent `view_item` on the id reports the `Unlisted` record; and
this is the only error path of any operation that leaves a mutated
store behind (every other failing invocation returns the store
unchanged). -/
theorem C2_expired_buy_reaps (env : Env) (s : Storage) (item_id : Nat)
    (buyer : Address) (item : Item)
    (ha : env.authed buyer = true)
    (hit : s.items item_id = some item)
    (hst : item.status = ItemStatus.Listed)
    (hexp : env.timestamp > item.expiry_time) :
    buy_item env s item_id buyer =
      (.error .Expired, setItem s item_id { item with status := ItemStatus.Unlisted }) ∧
    view_item (buy_item env s item_id buyer).2 item_id =
      .ok { item with status := ItemStatus.Unlisted } ∧
    (∀ env' s' a p d dur e, (list_item env' s' a p d dur).1 = .error e →
      (list_item env' s' a p d dur).2 = s') ∧
    (∀ env' s' i b e, (buy_item env' s' i b).1 = .error e → e ≠ .Expired →
      (buy_item env' s' i b).2 = s') ∧
    (∀ env' s' i a e, (unlist_item env' s' i a).1 = .error e →
      (unlist_item env' s' i a).2 = s') := by
  refine ⟨buy_item_expired ha hit hst hexp, ?_, ?_, ?_, ?_⟩
  · rw [buy_item_expired ha hit hst hexp]
    simp [view_item, setItem]
  · intro env' s' a p d dur e h
    exact list_item_error_unchanged env' s' a p d dur e h
  · intro env' s' i b e h hne
    exact buy_item_error_unchanged env' s' i b e h hne
  · intro env' s' i a e h
    exact unlist_item_error_unchanged env' s' i a e h

/-- Witness for C2: buying `item1` at time 5000 (past its expiry 4600)
fails with `Expired` and leaves the reaped item behind. -/
theorem C2_expired_buy_reaps_witness :
    (envLate.authed 9 = true ∧ s1.items 1 = some item1 ∧
     item1.status = ItemStatus.Listed ∧ envLate.timestamp > item1.expiry_time) ∧
    buy_item envLate s1 1 9 =
      (.error .Expired, setItem s1 1 { item1 with status := ItemStatus.Unlisted }) ∧
    view_item (buy_item envLate s1 1 9).2 1 =
      .ok { item1 with status := ItemStatus.Unlisted } :=
  have h := C2_expired_buy_reaps envLate s1 1 9 item1 rfl rfl rfl (by decide)
  ⟨⟨rfl, rfl, rfl, by decide⟩, h.1, h.2.1⟩

/-- C3: running any sequence of successful `list_item` calls from the
empty store returns the ids `1, 2, ..., n` in order — strictly
increasing from 1 with no gap and no reuse — and every successful call
returns `counter + 1` (counter defaulting to 0 when absent) and writes
that value back as the new counter. -/
theorem C3_sequential_ids (reqs : List (Env × ListReq)) (ids : List Nat)
    (s' : Storage) (h : runList Storage.empty reqs = some (ids, s')) :
    ids = List.range' 1 reqs.length ∧
    s'.itemCounter.getD 0 = reqs.length ∧
    (∀ env s a p d dur id st, list_item env s a p d dur = (.ok id, st) →
      id = s.itemCounter.getD 0 + 1 ∧ st.itemCounter = some id) := by
  obtain ⟨h1, h2⟩ := runList_ids reqs Storage.empty ids s' h
  refine ⟨?_, ?_, ?_⟩
  · simpa [Storage.empty] using h1
  · simpa [Storage.empty] using h2
  · intro env s a p d dur id st hok
    exact list_item_ok_counter hok

/-- Witness for C3: the two demo requests return ids `[1, 2]`. -/
theorem C3_sequential_ids_witness :
    runList Storage.empty demoReqs = some ([1, 2], demoS2) ∧
    [1, 2] = List.range' 1 demoReqs.length ∧
    demoS2.itemCounter.getD 0 = demoReqs.length :=
  have h := C3_sequential_ids demoReqs [1, 2] demoS2 rfl
  ⟨rfl, h.1, h.2.1⟩

/-- C4: for a valid, unexpired `Listed` item, a purchase attempt by the
seller itself fails with `SelfTrade` and changes nothing (the check
sits after the status and expiry checks, so it is reached exactly
under these hypotheses). -/
theorem C4_self_trade (env : Env) (s : Storage) (item_id : Nat)
    (buyer : Address) (item : Item)
    (ha : env.authed buyer = true)
    (hit : s.items item_id = some item)
    (hst : item.status = ItemStatus.Listed)
    (hexp : env.timestamp ≤ item.expiry_time)
    (hb : buyer = item.seller) :
    buy_item env s item_id buyer = (.error .SelfTrade, s) :=
  buy_item_selfTrade ha hit hst (by omega) hb

/-- Witness for C4: seller 7 cannot buy its own listing `item1`. -/
theorem C4_self_trade_witness :
    (env0.authed 7 = true ∧ s1.items 1 = some item1 ∧
     item1.status = ItemStatus.Listed ∧ env0.timestamp ≤ item1.expiry_time ∧
     (7 : Address) = item1.seller) ∧
    buy_item env0 s1 1 7 = (.error .SelfTrade, s1) :=
  ⟨⟨rfl, rfl, rfl, by decide, rfl⟩,
   C4_self_trade env0 s1 1 7 item1 rfl rfl rfl (by decide) rfl⟩

/-- C5: `buy_item` on an item whose status is `Sold` or `Unlisted`
fails with `NotAvailable` and returns the store exactly as it was:
no field of the stored item is mutated and nothing is written. -/
theorem C5_not_available (env : Env) (s : Storage) (item_id : Nat)
    (buyer : Address) (item : Item)
    (ha : env.authed buyer = true)
    (hit : s.items item_id = some item)
    (hst : item.status = ItemStatus.Sold ∨ item.status = ItemStatus.Unlisted) :
    buy_item env s item_id buyer = (.error .NotAvailable, s) :=
  buy_item_notAvailable ha hit (by rcases hst with h | h <;> simp [h])

/-- Witness for C5: buying the already sold item fails with
`NotAvailable` and leaves the store untouched. -/
theorem C5_not_available_witness :
    (env0.authed 5 = true ∧ sSold.items 1 = some itemSold ∧
     itemSold.status = ItemStatus.Sold) ∧
    buy_item env0 sSold 1 5 = (.error .NotAvailable, sSold) :=
  ⟨⟨rfl, rfl, rfl⟩,
   C5_not_available env0 sSold 1 5 itemSold rfl rfl (Or.inl rfl)⟩

/-- C6: `list_item` with `price ≤ 0` fails with `InvalidPrice` and
returns the store exactly as it was: no item is created and the
`ItemCounter` (like everything else) is unchanged. -/
theorem C6_invalid_price (env : Env) (s : Storage) (seller : Address)
    (price : Int) (d : String) (dur : Nat)
    (ha : env.authed seller = true) (hp : price ≤ 0) :
    list_item env s seller price d dur = (.error .InvalidPrice, s) :=
  list_item_invalidPrice ha hp

/-- Witness for C6: listing at price 0 fails and leaves `s1` alone. -/
theorem C6_invalid_price_witness :
    (env0.authed 7 = true ∧ (0 : Int) ≤ 0) ∧
    list_item env0 s1 7 0 "junk" 3600 = (.error .InvalidPrice, s1) :=
  ⟨⟨rfl, by decide⟩, C6_invalid_price env0 s1 7 0 "junk" 3600 rfl (by decide)⟩

/-- C7: round-trip — after a successful
`list_item(seller, price, description, duration_seconds)` returning
`id` at current time `t`, `view_item id` returns exactly the record
with that seller, price and description, `list_time = t`,
`expiry_time = t + duration_seconds`, `status = Listed`, and
`buyer = none`. -/
theorem C7_round_trip (env : Env) (s : Storage) (seller : Address)
    (price : Int) (d : String) (dur id : Nat)
    (h : (list_item env s seller price d dur).1 = .ok id) :
    view_item (list_item env s seller price d dur).2 id =
      .ok { id := id
            seller := seller
            price := price
            description := d
            status := ItemStatus.Listed
            buyer := none
            list_time := env.timestamp
            expiry_time := env.timestamp + dur } := by
  by_cases ha : env.authed seller = true
  · by_cases hp : price ≤ 0
    · rw [list_item_invalidPrice ha hp] at h
      simp at h
    · cases hc : checkedAdd64 (s.itemCounter.getD 0) 1 with
      | none =>
        rw [list_item_counterOverflow ha hp hc] at h
        simp at h
      | some iid =>
        cases ht : checkedAdd64 env.timestamp dur with
        | none =>
          rw [list_item_timeOverflow ha hp hc ht] at h
          simp at h
        | some expiry =>
          rw [list_item_success ha hp hc ht] at h ⊢
          simp only [Except.ok.injEq] at h
          subst h
          obtain ⟨rfl, -⟩ := checkedAdd64_some ht
          simp [view_item, setItem, listedItem]
  · rw [list_item_unauth (by simpa using ha)] at h
    simp at h

/-- Witness for C7: the first demo listing is immediately viewable with
the implied record. -/
theorem C7_round_trip_witness :
    (list_item env0 Storage.empty 7 100 "apple" 3600).1 = .ok 1 ∧
    view_item (list_item env0 Storage.empty 7 100 "apple" 3600).2 1 =
      .ok { id := 1
            seller := 7
            price := 100
            description := "apple"
            status := ItemStatus.Listed
            buyer := none
            list_time := env0.timestamp
            expiry_time := env0.timestamp + 3600 } :=
  ⟨rfl, C7_round_trip env0 Storage.empty 7 100 "apple" 3600 1 rfl⟩

/-- C8: `unlist_item` performs no expiry check: a `Listed` item owned
by the caller is successfully set to `Unlisted` even when the current
time is already past the item's expiry (an expired-but-not-yet-reaped
listing can still be unlisted). -/
theorem C8_unlist_ignores_expiry (env : Env) (s : Storage) (item_id : Nat)
    (seller : Address) (item : Item)
    (ha : env.authed seller = true)
    (hit : s.items item_id = some item)
    (ho : item.seller = seller)
    (hst : item.status = ItemStatus.Listed)
    (hexp : env.timestamp > item.expiry_time) :
    unlist_item env s item_id seller =
      (.ok true, setItem s item_id { item with status := ItemStatus.Unlisted }) := by
  have _ := hexp
  exact unlist_item_success ha hit ho hst

/-- Witness for C8: seller 7 unlists `item1` at time 5000 although the
listing expired at 4600. -/
theorem C8_unlist_ignores_expiry_witness :
    (envLate.authed 7 = true ∧ s1.items 1 = some item1 ∧
     item1.seller = 7 ∧ item1.status = ItemStatus.Listed ∧
     envLate.timestamp > item1.expiry_time) ∧
    unlist_item envLate s1 1 7 =
      (.ok true, setItem s1 1 { item1 with status := ItemStatus.Unlisted }) :=
  ⟨⟨rfl, rfl, rfl, rfl, by decide⟩,
   C8_unlist_ignores_expiry envLate s1 1 7 item1 rfl rfl rfl rfl (by decide)⟩

/-- C9: after every operation, every stored item satisfies
`expiry_time ≥ list_time`, for every current time and every
`duration_seconds`.  `list_item` computes
`expiry_time = current_time + duration_seconds` in checked `u64`
arithmetic (`checkedAdd64`): a sum not below `2^64` aborts the
invocation with nothing stored, and every stored item satisfies the
bound. -/
theorem C9_expiry_ge_list_time (env : Env) (s : Storage) (op : Op)
    (hT : TimeInv s) : TimeInv (applyOp env s op) := by
  cases op with
  | list a p d dur => exact list_item_timeInv env s a p d dur hT
  | buy i b => exact buy_item_timeInv env s i b hT
  | unlist i a => exact unlist_item_timeInv env s i a hT
  | view _ => exact hT

/-- Witness for C9 at a concrete state and a concrete listing. -/
theorem C9_expiry_ge_list_time_witness :
    TimeInv s1 ∧ TimeInv (applyOp env2 s1 (Op.list 8 50 "pear" 100)) :=
  ⟨TimeInv_s1, C9_expiry_ge_list_time env2 s1 (Op.list 8 50 "pear" 100) TimeInv_s1⟩

/-- C10: the success flag carries no information — whenever `buy_item`
or `unlist_item` returns normally, the returned boolean is the constant
`true`; neither operation can return `false`. -/
theorem C10_success_flag_true (env : Env) (s : Storage) (item_id : Nat)
    (a : Address) :
    (∀ b, (buy_item env s item_id a).1 = .ok b → b = true) ∧
    (∀ b, (unlist_item env s item_id a).1 = .ok b → b = true) := by
  constructor
  · intro b h
    by_cases ha : env.authed a = true
    · cases hit : s.items item_id with
      | none =>
        rw [buy_item_notFound ha hit] at h
        simp at h
      | some item =>
        by_cases hst : item.status = ItemStatus.Listed
        · by_cases hexp : env.timestamp > item.expiry_time
          · rw [buy_item_expired ha hit hst hexp] at h
            simp at h
          · by_cases hbs : a = item.seller
            · rw [buy_item_selfTrade ha hit hst hexp hbs] at h
              simp at h
            · rw [buy_item_success ha hit hst hexp hbs] at h
              have h' : Except.ok (ε := ContractError) true = Except.ok b := h
              exact (Except.ok.inj h').symm
        · rw [buy_item_notAvailable ha hit hst] at h
          simp at h
    · rw [buy_item_unauth (by simpa using ha)] at h
      simp at h
  · intro b h
    by_cases ha : env.authed a = true
    · cases hit : s.items item_id with
      | none =>
        rw [unlist_item_notFound ha hit] at h
        simp at h
      | some item =>
        by_cases ho : item.seller = a
        · by_cases hst : item.status = ItemStatus.Listed
          · rw [unlist_item_success ha hit ho hst] at h
            have h' : Except.ok (ε := ContractError) true = Except.ok b := h
            exact (Except.ok.inj h').symm
          · rw [unlist_item_notAvailable ha hit ho hst] at h
            simp at h
        · rw [unlist_item_notOwner ha hit ho] at h
          simp at h
    · rw [unlist_item_unauth (by simpa using ha)] at h
      simp at h

/-- Witness for C10: a concrete successful purchase and a concrete
successful unlisting both return `true`. -/
theorem C10_success_flag_true_witness :
    (buy_item env0 s1 1 9).1 = .ok true ∧
    (unlist_item env0 s1 1 7).1 = .ok true ∧
    true = true ∧ true = true :=
  ⟨rfl, rfl,
   (C10_success_flag_true env0 s1 1 9).1 true rfl,
   (C10_success_flag_true env0 s1 1 7).2 true rfl⟩

end Auction
